import Mathlib

/-!
Verification of the market-brief sentiment core: the layered content-addressed
sentiment cache (`src/lib/gemini.ts`), the quota-aware bulk analyzer, the usage
tracker, the fixed-window rate limiters (`src/app/api/analysis/route.ts` and the
news route), and the overall-sentiment aggregation.

Conventions of the shallow embedding:
* JS `Date.now()` millisecond timestamps are `Int` (JS subtraction such as
  `now - timestamp` is exact integer arithmetic in the ranges involved).
* JS in-memory `Map` objects are modelled as functions `String → Option _`;
  `Map.set` is pointwise functional update.
* JS string hashing uses UTF-16 code units; we use `Char.toNat`, which agrees
  on all code points of the Basic Multilingual Plane (every string literal in
  the repository is ASCII).
* Confidence values (JS numbers used only via `+`, `/`, comparisons, `min`,
  `max`) are modelled as `ℚ`.
* The external model and the clock are passed in as explicit parameters; the
  number of external-model invocations (`trackApiCall` sites) is returned as an
  explicit counter so that "makes zero external calls" is a provable statement.
-/

set_option maxRecDepth 8192
set_option maxHeartbeats 1000000

namespace MarketBrief

-- Mathlib marks the core `Rat` arithmetic irreducible; restore reducibility
-- locally so that concrete witnesses evaluate by `decide`.
attribute [local semireducible] Rat.add Rat.mul Rat.sub Rat.inv Rat.ofScientific

/-- Sentiment category union type `'positive' | 'negative' | 'neutral'`. -/
inductive SentimentLabel where
  | positive
  | negative
  | neutral
deriving DecidableEq, Repr

/-- The sentiment record `{ sentiment, confidence, summary }` produced by the
analyzer and stored in the caches. -/
structure Sentiment where
  sentiment : SentimentLabel
  confidence : ℚ
  summary : String
deriving DecidableEq, Repr

/-- An input article `{ id, title, summary }` as passed to
`analyzeBulkSentiment`. -/
structure Article where
  id : String
  title : String
  summary : String
deriving DecidableEq, Repr

/-- Coerce an integer to the signed 32-bit value JS bitwise operators produce. -/
def toInt32 (n : Int) : Int :=
  let m := n % 4294967296
  if m < 2147483648 then m else m - 4294967296

/-- One step of the rolling hash `hash = ((hash << 5) - hash) + char;
hash = hash & hash` (gemini.ts lines 240-241 and 252-253).  `hash << 5`
wraps to a signed 32-bit value, the subtraction and addition are exact,
and `hash & hash` truncates back to signed 32 bits. -/
def jsHashStep (h : Int) (c : Nat) : Int :=
  toInt32 (toInt32 (h * 32) - h + c)

/-- The rolling hash loop over the code units of a string, starting at 0. -/
def jsStringHash (s : String) : Int :=
  s.toList.foldl (fun h c => jsHashStep h c.toNat) 0

/-- `generateContentHash` (gemini.ts 234-244): join the articles as
`title|summary` separated by `||`, hash, and prefix with `sentiment_`. -/
def generateContentHash (articles : List Article) : String :=
  let content := String.intercalate ("||") (articles.map fun a => a.title ++ ("|") ++ a.summary)
  "sentiment_" ++ toString (jsStringHash content)

/-- `generateArticleHash` (gemini.ts 247-256): hash of `title|summary` with
prefix `article_`. -/
def generateArticleHash (article : Article) : String :=
  let content := article.title ++ ("|") ++ article.summary
  "article_" ++ toString (jsStringHash content)

/-- `ARTICLE_CACHE_DURATION = 24 * 60 * 60 * 1000` (24 hours, in ms). -/
def articleCacheDuration : Int := 24 * 60 * 60 * 1000

/-- `SENTIMENT_CACHE_DURATION = 60 * 60 * 1000` (60 minutes, in ms). -/
def sentimentCacheDuration : Int := 60 * 60 * 1000

/-- An entry of `individualArticleCache`: `{ timestamp, sentiment }`. -/
structure ArticleCacheEntry where
  timestamp : Int
  sentiment : Sentiment
deriving DecidableEq, Repr

/-- An entry of the bulk `sentimentCache`: `{ timestamp, data }`. -/
structure BulkCacheEntry where
  timestamp : Int
  data : List Sentiment
deriving DecidableEq, Repr

/-- The `individualArticleCache` map. -/
def ArticleCache : Type := String → Option ArticleCacheEntry

/-- The bulk `sentimentCache` map. -/
def SentimentCacheMap : Type := String → Option BulkCacheEntry

/-- `Map.set` on the per-article cache. -/
def updateArticleCache (c : ArticleCache) (k : String) (v : ArticleCacheEntry) : ArticleCache :=
  fun q => if q = k then some v else c q

/-- `Map.set` on the bulk cache. -/
def updateSentimentCache (c : SentimentCacheMap) (k : String) (v : BulkCacheEntry) :
    SentimentCacheMap :=
  fun q => if q = k then some v else c q

/-- The per-article cache probe performed inside `getCachedArticleSentiments`
(gemini.ts 279-289): an entry counts as a hit only when present and
`now - cached.timestamp < ARTICLE_CACHE_DURATION`. -/
def articleCacheLookup (c : ArticleCache) (now : Int) (a : Article) : Option Sentiment :=
  match c (generateArticleHash a) with
  | some cached => if now - cached.timestamp < articleCacheDuration then some cached.sentiment else none
  | none => none

/-- The bulk cache probe performed inside `analyzeBulkSentiment`
(gemini.ts 442-454): valid only while
`now - bulkCached.timestamp < SENTIMENT_CACHE_DURATION`. -/
def bulkCacheLookup (c : SentimentCacheMap) (now : Int) (k : String) : Option (List Sentiment) :=
  match c k with
  | some cached => if now - cached.timestamp < sentimentCacheDuration then some cached.data else none
  | none => none

/-- Both module-level caches of gemini.ts, bundled as one state. -/
structure BulkState where
  individualArticleCache : ArticleCache
  sentimentCache : SentimentCacheMap

/-- `cleanupSentimentCache` (gemini.ts 214-228): the 5-minute sweep deletes
bulk entries with `now - timestamp > SENTIMENT_CACHE_DURATION` and article
entries with `now - timestamp > ARTICLE_CACHE_DURATION`. -/
def cleanupSentimentCache (now : Int) (st : BulkState) : BulkState where
  individualArticleCache := fun k =>
    match st.individualArticleCache k with
    | some e => if now - e.timestamp > articleCacheDuration then none else some e
    | none => none
  sentimentCache := fun k =>
    match st.sentimentCache k with
    | some e => if now - e.timestamp > sentimentCacheDuration then none else some e
    | none => none

/-- Result record of `getCachedArticleSentiments` (gemini.ts 259-293):
`cachedResults` (one `Option` slot per input article, in input order),
`uncachedArticles` (index + article of each miss, in input order) and the
hit/miss counters. -/
structure CacheCheckResult where
  cachedResults : List (Option Sentiment)
  uncachedArticles : List (Nat × Article)
  hits : Nat
  misses : Nat
deriving Repr

/-- The `articles.forEach((article, index) => ...)` loop of
`getCachedArticleSentiments`, with `i` the index of the first element. -/
def cacheCheckAux (c : ArticleCache) (now : Int) : Nat → List Article → CacheCheckResult
  | _, [] => ⟨[], [], 0, 0⟩
  | i, a :: rest =>
    let tail := cacheCheckAux c now (i + 1) rest
    match articleCacheLookup c now a with
    | some s =>
      ⟨some s :: tail.cachedResults, tail.uncachedArticles, tail.hits + 1, tail.misses⟩
    | none =>
      ⟨none :: tail.cachedResults, (i, a) :: tail.uncachedArticles, tail.hits, tail.misses + 1⟩

/-- `getCachedArticleSentiments` (gemini.ts 259-293). -/
def getCachedArticleSentiments (c : ArticleCache) (now : Int) (articles : List Article) :
    CacheCheckResult :=
  cacheCheckAux c now 0 articles

/-- The `articles.forEach((article, index) => ...)` loop of
`cacheArticleSentiments` (gemini.ts 296-317): store `sentiments[index]` under
the article hash when it exists (`if (sentiment)`). -/
def cacheArticleSentimentsAux (now : Int) (sentiments : List Sentiment) :
    Nat → List Article → ArticleCache → ArticleCache
  | _, [], c => c
  | i, a :: rest, c =>
    let c1 :=
      match sentiments.get? i with
      | some s => updateArticleCache c (generateArticleHash a) ⟨now, s⟩
      | none => c
    cacheArticleSentimentsAux now sentiments (i + 1) rest c1

/-- `cacheArticleSentiments` (gemini.ts 296-317). -/
def cacheArticleSentiments (now : Int) (articles : List Article)
    (sentiments : List Sentiment) (c : ArticleCache) : ArticleCache :=
  cacheArticleSentimentsAux now sentiments 0 articles c

/-- The padding placeholder used when the parsed model array lacks an entry for
an uncached article (gemini.ts 512-518). -/
def unanalyzedPlaceholder : Sentiment :=
  ⟨.neutral, 0, "Unable to analyze sentiment"⟩

/-- The placeholder produced when the model call or JSON parse throws
(gemini.ts 544-548). -/
def apiErrorPlaceholder : Sentiment :=
  ⟨.neutral, 0, "Unable to analyze sentiment due to API error"⟩

/-- The placeholder for uncached slots when the model is unavailable
(gemini.ts 420-428); the reason string depends on whether Gemini is disabled
by the `LOCAL_TESTING_DISABLE_GEMINI` flag or the API key is missing. -/
def geminiUnavailablePlaceholder (disabled : Bool) : Sentiment :=
  ⟨.neutral, 0,
    if disabled then "Gemini API disabled - enable to analyze this article"
    else "API key not configured"⟩

/-- The placeholder of the step-7 `Unexpected state` fallback
(gemini.ts 588-592). -/
def unexpectedStatePlaceholder : Sentiment :=
  ⟨.neutral, 0, "Unexpected error in sentiment analysis"⟩

/-- Stands for the JS `undefined` value in the two places the TypeScript type
system is bypassed at runtime: `cachedResults.map(result => result!)` on a
`null` slot, and `newSentiments[newSentimentIndex]` past the end of the array.
The theorems below show these places are only reached when the value is
present, so this marker never appears in a result. -/
def jsUndefinedSentiment : Sentiment :=
  ⟨.neutral, 0, "undefined"⟩

/-- `uncachedArticleList.map((_, index) => results[index] || placeholder)`
(gemini.ts 512-518): one entry per uncached article, taking the parsed entry
at the same index when present and the neutral placeholder otherwise. -/
def padResults (rs : List Sentiment) : Nat → List Article → List Sentiment
  | _, [] => []
  | i, _ :: rest => ((rs.get? i).getD unanalyzedPlaceholder) :: padResults rs (i + 1) rest

/-- The step-6 merge loop (gemini.ts 558-575): walk the input slots, keeping
cached results and consuming `newSentiments` in order for the `null` slots.
If `newSentiments` runs out JS would insert `undefined`
(`jsUndefinedSentiment` here); the theorems show the analyzed paths never do. -/
def mergeResults : List (Option Sentiment) → List Sentiment → List Sentiment
  | [], _ => []
  | some c :: rest, ns => c :: mergeResults rest ns
  | none :: rest, [] => jsUndefinedSentiment :: mergeResults rest []
  | none :: rest, n :: ns => n :: mergeResults rest ns

/-- The outcome of the external model call for one batch prompt: the call (or
the subsequent `JSON.parse`) threw, or it parsed to a non-array JSON value, or
it parsed to an array of sentiment objects. -/
inductive ModelResponse where
  | failure
  | nonArray
  | array (rs : List Sentiment)

/-- What one `analyzeBulkSentiment` call produces in the embedding: the
returned array, the caches after the call, the number of external-model
invocations performed (`trackApiCall` sites reached), and whether the step-7
`Unexpected state` fallback branch was taken. -/
structure BulkOutcome where
  results : List Sentiment
  state : BulkState
  apiCalls : Nat
  usedFallback : Bool

/-- Steps 4a-4c of `analyzeBulkSentiment` (gemini.ts 438-550) for a non-empty
uncached list: probe the bulk cache under the content key of exactly the
uncached articles; on a miss invoke the model once and build `newSentiments`
from the response (`Array.isArray` guard, per-index padding, or the
all-placeholder API-error fallback), storing the fresh result in the bulk
cache on a successful parse.  Returns `newSentiments`, the new bulk cache and
the number of model invocations. -/
def analyzeBulkUncachedStep (sc : SentimentCacheMap) (now : Int) (response : ModelResponse)
    (uncachedArticleList : List Article) : List Sentiment × SentimentCacheMap × Nat :=
  let contentKey := generateContentHash uncachedArticleList
  match bulkCacheLookup sc now contentKey with
  | some data => (data, sc, 0)
  | none =>
    match response with
    | .failure => (uncachedArticleList.map fun _ => apiErrorPlaceholder, sc, 1)
    | .nonArray =>
      let ns := padResults [] 0 uncachedArticleList
      (ns, updateSentimentCache sc contentKey ⟨now, ns⟩, 1)
    | .array rs =>
      let ns := padResults rs 0 uncachedArticleList
      (ns, updateSentimentCache sc contentKey ⟨now, ns⟩, 1)

/-- `analyzeBulkSentiment` (gemini.ts 386-593).  `modelPresent` is `model !==
null`, `disabled` is `LOCAL_TESTING_DISABLE_GEMINI`, `response` is the oracle
for what the external model would answer.  Step numbers follow the source:
step 2 returns the complete cached results, step 3 handles the disabled model,
steps 4-6 analyze the uncached remainder, write both caches and merge, and
step 7 is the `Unexpected state` fallback. -/
def analyzeBulkSentiment (st : BulkState) (now : Int) (modelPresent disabled : Bool)
    (response : ModelResponse) (articles : List Article) : BulkOutcome :=
  let check := getCachedArticleSentiments st.individualArticleCache now articles
  if check.misses = 0 then
    ⟨check.cachedResults.map fun r => r.getD jsUndefinedSentiment, st, 0, false⟩
  else if !modelPresent || disabled then
    ⟨check.cachedResults.map fun r => r.getD (geminiUnavailablePlaceholder disabled), st, 0, false⟩
  else if 0 < check.uncachedArticles.length then
    let uncachedArticleList := check.uncachedArticles.map fun p => p.2
    let step := analyzeBulkUncachedStep st.sentimentCache now response uncachedArticleList
    let newSentiments := step.1
    let sc1 := step.2.1
    let calls := step.2.2
    let ic1 :=
      if 0 < newSentiments.length then
        cacheArticleSentiments now uncachedArticleList newSentiments st.individualArticleCache
      else st.individualArticleCache
    ⟨mergeResults check.cachedResults newSentiments, ⟨ic1, sc1⟩, calls, false⟩
  else
    ⟨articles.map fun _ => unexpectedStatePlaceholder, st, 0, true⟩

/-! ## Aggregation: `calculateOverallSentiment` (gemini.ts 595-676) -/

/-- The `breakdown` counts per category. -/
structure Breakdown where
  positive : Nat
  negative : Nat
  neutral : Nat
deriving DecidableEq, Repr

/-- The confidence-weighted scores per category. -/
structure WeightedScores where
  positive : ℚ
  negative : ℚ
  neutral : ℚ
deriving DecidableEq, Repr

/-- The return value of `calculateOverallSentiment`. -/
structure OverallSentiment where
  overallSentiment : SentimentLabel
  confidence : ℚ
  summary : String
  breakdown : Breakdown
deriving DecidableEq, Repr

/-- `articles.map(a => a.sentiment).filter(Boolean)` (gemini.ts 611-617); the
input objects have a single optional `sentiment` field, modelled as
`Option Sentiment`. -/
def validSentiments (articles : List (Option Sentiment)) : List Sentiment :=
  articles.filterMap id

/-- The `reduce` computing `breakdown` (gemini.ts 629-632). -/
def breakdownOf (l : List Sentiment) : Breakdown :=
  l.foldl
    (fun acc s =>
      match s.sentiment with
      | .positive => { acc with positive := acc.positive + 1 }
      | .negative => { acc with negative := acc.negative + 1 }
      | .neutral => { acc with neutral := acc.neutral + 1 })
    ⟨0, 0, 0⟩

/-- The `reduce` computing `weightedScores` (gemini.ts 635-641). -/
def weightedScoresOf (l : List Sentiment) : WeightedScores :=
  l.foldl
    (fun acc s =>
      match s.sentiment with
      | .positive => { acc with positive := acc.positive + s.confidence }
      | .negative => { acc with negative := acc.negative + s.confidence }
      | .neutral => { acc with neutral := acc.neutral + s.confidence })
    ⟨0, 0, 0⟩

/-- `totalWeight = Object.values(weightedScores).reduce((sum, val) => sum + val, 0)`. -/
def totalWeightOf (w : WeightedScores) : ℚ :=
  w.positive + w.negative + w.neutral

/-- `avgConfidence = validSentiments.reduce((sum, s) => sum + s.confidence, 0) /
validSentiments.length`.  (Division by zero cannot occur: callers guard on a
non-empty list.) -/
def avgConfidenceOf (l : List Sentiment) : ℚ :=
  (l.foldl (fun sum s => sum + s.confidence) 0) / (l.length : ℚ)

/-- JS `Math.min` on two (non-NaN) numbers. -/
def jsMin (a b : ℚ) : ℚ := if a ≤ b then a else b

/-- JS `Math.max` on two (non-NaN) numbers. -/
def jsMax (a b : ℚ) : ℚ := if a ≤ b then b else a

/-- The string a category interpolates to in a template literal. -/
def labelString : SentimentLabel → String
  | .positive => "positive"
  | .negative => "negative"
  | .neutral => "neutral"

/-- Stable insertion of an entry into a count-descending list: keep entries
with a strictly larger count in front, so that among equal counts the earlier
original entry stays first. -/
def insertDescByCount (x : String × Nat) : List (String × Nat) → List (String × Nat)
  | [] => [x]
  | y :: ys => if y.2 > x.2 then y :: insertDescByCount x ys else x :: y :: ys

/-- Stable descending sort by count, modelling
`Object.entries(breakdown).sort(([,a],[,b]) => b - a)` — `Array.prototype.sort`
is stable, so ties keep the `positive, negative, neutral` entry order. -/
def sortDescByCount : List (String × Nat) → List (String × Nat)
  | [] => []
  | x :: xs => insertDescByCount x (sortDescByCount xs)

/-- `dominantSentiment` (gemini.ts 662-663): the key of the first entry of the
count-sorted breakdown. -/
def dominantSentiment (b : Breakdown) : String :=
  match sortDescByCount [("positive", b.positive), ("negative", b.negative), ("neutral", b.neutral)] with
  | [] => "neutral"
  | e :: _ => e.1

/-- The qualitative phrase appended to the summary (gemini.ts 667-668), chosen
from `dominantSentiment`. -/
def dominantPhrase (dominant : String) : String :=
  if dominant = "positive" then "Bullish indicators dominate."
  else if dominant = "negative" then "Bearish concerns present."
  else "Mixed signals in the market."

/-- The templated summary sentence (gemini.ts 665-668). -/
def mkSummary (overall : SentimentLabel) (n : Nat) (b : Breakdown) : String :=
  "Market sentiment appears " ++ labelString overall ++ " based on " ++ toString n ++
    " articles. " ++ "Breakdown: " ++ toString b.positive ++ " positive, " ++
    toString b.negative ++ " negative, " ++ toString b.neutral ++ " neutral. " ++
    dominantPhrase (dominantSentiment b)

/-- `calculateOverallSentiment` (gemini.ts 595-676).  The winning-category
if-chain and the `min`/`max` confidence formulas follow the source; Lean's
`x / 0 = 0` convention replaces the JS `NaN` that would arise only when every
rated article has confidence 0 (none of the verified claims concern the
confidence value in that corner). -/
def calculateOverallSentiment (articles : List (Option Sentiment)) : OverallSentiment :=
  let valid := validSentiments articles
  if valid.length = 0 then
    ⟨.neutral, 0, "No sentiment data available", ⟨0, 0, 0⟩⟩
  else
    let breakdown := breakdownOf valid
    let w := weightedScoresOf valid
    let totalWeight := totalWeightOf w
    let avgConfidence := avgConfidenceOf valid
    if w.positive > w.negative ∧ w.positive > w.neutral then
      ⟨.positive, jsMin 0.95 ((w.positive / totalWeight) * avgConfidence),
        mkSummary .positive valid.length breakdown, breakdown⟩
    else if w.negative > w.positive ∧ w.negative > w.neutral then
      ⟨.negative, jsMin 0.95 ((w.negative / totalWeight) * avgConfidence),
        mkSummary .negative valid.length breakdown, breakdown⟩
    else
      ⟨.neutral, jsMin 0.95 ((jsMax (w.neutral / totalWeight) 0.3) * avgConfidence),
        mkSummary .neutral valid.length breakdown, breakdown⟩

/-! ## Usage tracker (gemini.ts 20-134) -/

/-- The `usageStats` record. -/
structure UsageStats where
  totalCalls : Nat
  successfulCalls : Nat
  failedCalls : Nat
  lastCallTime : Int
  quotaErrors : Nat
  rateLimitErrors : Nat
  estimatedTokensUsed : Nat
  todaysCalls : Nat
  lastResetDate : String
deriving DecidableEq, Repr

/-- `checkDailyReset` (gemini.ts 46-56): `todayPacific` is the Pacific-time
calendar date string computed from the clock; when it differs from the stored
`lastResetDate`, zero `todaysCalls` and store the new date. -/
def checkDailyReset (todayPacific : String) (s : UsageStats) : UsageStats :=
  if s.lastResetDate ≠ todayPacific then
    { s with todaysCalls := 0, lastResetDate := todayPacific }
  else s

/-- `trackApiCall` (gemini.ts 59-64): run the daily-reset check, then bump the
total and daily counters and record the call time. -/
def trackApiCall (todayPacific : String) (now : Int) (s : UsageStats) : UsageStats :=
  let s1 := checkDailyReset todayPacific s
  { s1 with
    totalCalls := s1.totalCalls + 1
    todaysCalls := s1.todaysCalls + 1
    lastCallTime := now }

/-- `trackApiResult` (gemini.ts 67-81): `errQuota` stands for the
quota-message/429 test, `errRate` for the rate-limit-message test; the source
applies them in `if / else if` order. -/
def trackApiResult (success errQuota errRate : Bool) (estimatedTokens : Nat)
    (s : UsageStats) : UsageStats :=
  if success then
    { s with
      successfulCalls := s.successfulCalls + 1
      estimatedTokensUsed := s.estimatedTokensUsed + estimatedTokens }
  else
    let s1 := { s with failedCalls := s.failedCalls + 1 }
    if errQuota then { s1 with quotaErrors := s1.quotaErrors + 1 }
    else if errRate then { s1 with rateLimitErrors := s1.rateLimitErrors + 1 }
    else s1

/-- `getUsageStats` (gemini.ts 84-134): runs `checkDailyReset` first, then
returns the (post-reset) counters via the `...usageStats` spread.  The result
pair is (returned stats record, usage state after the call); the
display-only derived strings (quota percentage, next-reset timestamp, cache
sizes) are formatting of the same post-reset state and are not modelled. -/
def getUsageStats (todayPacific : String) (s : UsageStats) : UsageStats × UsageStats :=
  let s1 := checkDailyReset todayPacific s
  (s1, s1)

/-- One operation against the shared usage-tracker state. -/
inductive UsageOp where
  | call (todayPacific : String) (now : Int)
  | result (success errQuota errRate : Bool) (estimatedTokens : Nat)
  | stats (todayPacific : String)

/-- The state transition of a single usage-tracker operation. -/
def applyUsageOp (s : UsageStats) : UsageOp → UsageStats
  | .call todayPacific now => trackApiCall todayPacific now s
  | .result success errQuota errRate tokens => trackApiResult success errQuota errRate tokens s
  | .stats todayPacific => (getUsageStats todayPacific s).2

/-- Run a sequence of usage-tracker operations. -/
def runUsageOps (s : UsageStats) : List UsageOp → UsageStats
  | [] => s
  | op :: ops => runUsageOps (applyUsageOp s op) ops

/-! ## Fixed-window rate limiter
(`checkAnalysisRateLimit`, analysis/route.ts 9-37, and `checkRateLimit` of the
news route, which differ only in their window/max constants and map key). -/

/-- A `requestCounts` map entry `{ count, resetTime }`. -/
structure RateRecord where
  count : Nat
  resetTime : Int
deriving DecidableEq, Repr

/-- The `{ allowed, remaining, resetTime }` result of a rate-limit check. -/
structure RateLimitResult where
  allowed : Bool
  remaining : Int
  resetTime : Int
deriving DecidableEq, Repr

/-- The per-route `requestCounts` map. -/
def RateMap : Type := String → Option RateRecord

/-- `Map.set` on a rate-limit map. -/
def updateRateMap (m : RateMap) (k : String) (v : RateRecord) : RateMap :=
  fun q => if q = k then some v else m q

/-- The shared fixed-window check (analysis/route.ts 9-37; the news route
repeats it verbatim with its own constants): create the window on first sight
of the key, reset to count 1 when `now > resetTime`, reject at `count >= max`,
otherwise increment. -/
def rateLimitCheck (window : Int) (maxRequests : Nat) (m : RateMap) (key : String)
    (now : Int) : RateLimitResult × RateMap :=
  match m key with
  | none =>
    (⟨true, (maxRequests : Int) - 1, now + window⟩,
      updateRateMap m key ⟨1, now + window⟩)
  | some record =>
    if now > record.resetTime then
      (⟨true, (maxRequests : Int) - 1, now + window⟩,
        updateRateMap m key ⟨1, now + window⟩)
    else if record.count ≥ maxRequests then
      (⟨false, 0, record.resetTime⟩, m)
    else
      (⟨true, (maxRequests : Int) - (record.count + 1), record.resetTime⟩,
        updateRateMap m key ⟨record.count + 1, record.resetTime⟩)

/-- `ANALYSIS_RATE_LIMIT_WINDOW = 5 * 60 * 1000`. -/
def analysisRateLimitWindow : Int := 5 * 60 * 1000

/-- `ANALYSIS_RATE_LIMIT_MAX_REQUESTS = 10`. -/
def analysisRateLimitMaxRequests : Nat := 10

/-- `checkAnalysisRateLimit(ip)` (analysis/route.ts 9-37); the map key is
`analysis_${ip}`. -/
def checkAnalysisRateLimit (m : RateMap) (ip : String) (now : Int) :
    RateLimitResult × RateMap :=
  rateLimitCheck analysisRateLimitWindow analysisRateLimitMaxRequests m ("analysis_" ++ ip) now

/-- `RATE_LIMIT_WINDOW = 10 * 60 * 1000` (news route). -/
def newsRateLimitWindow : Int := 10 * 60 * 1000

/-- `RATE_LIMIT_MAX_REQUESTS = 20` (news route). -/
def newsRateLimitMaxRequests : Nat := 20

/-- `checkRateLimit(ip)` of the news route; the map key is the bare ip. -/
def checkRateLimit (m : RateMap) (ip : String) (now : Int) :
    RateLimitResult × RateMap :=
  rateLimitCheck newsRateLimitWindow newsRateLimitMaxRequests m ip now

/-- Run a sequence of checks for one client key, collecting the per-call
results and the final map. -/
def runRateLimit (window : Int) (maxRequests : Nat) (key : String) :
    RateMap → List Int → List RateLimitResult × RateMap
  | m, [] => ([], m)
  | m, t :: ts =>
    let step := rateLimitCheck window maxRequests m key t
    let rest := runRateLimit window maxRequests key step.2 ts
    (step.1 :: rest.1, rest.2)

/-! ## Claim C5: lazy TTL expiry of both caches -/

/-- C5: a per-item cache lookup succeeds exactly when the entry is present and
written strictly less than 24 hours before the read; an entry written at `t0`
is absent at `t0 + 24h + 1ms`; the result of a lookup is unchanged by a
`cleanupSentimentCache` sweep run at any earlier or equal time; and a bulk
cache entry at least 60 minutes old is absent. -/
theorem sentiment_cache_ttl_lazy_expiry :
    (∀ (c : ArticleCache) (now : Int) (a : Article) (s : Sentiment),
      articleCacheLookup c now a = some s ↔
        ∃ e, c (generateArticleHash a) = some e ∧
          now - e.timestamp < articleCacheDuration ∧ e.sentiment = s)
  ∧ (∀ (t0 : Int) (s : Sentiment) (a : Article),
      articleCacheLookup
        (fun k => if k = generateArticleHash a then some ⟨t0, s⟩ else none)
        (t0 + articleCacheDuration + 1) a = none)
  ∧ (∀ (st : BulkState) (t1 t2 : Int) (a : Article), t1 ≤ t2 →
      articleCacheLookup (cleanupSentimentCache t1 st).individualArticleCache t2 a =
        articleCacheLookup st.individualArticleCache t2 a)
  ∧ (∀ (st : BulkState) (t1 t2 : Int) (k : String), t1 ≤ t2 →
      bulkCacheLookup (cleanupSentimentCache t1 st).sentimentCache t2 k =
        bulkCacheLookup st.sentimentCache t2 k)
  ∧ (∀ (sc : SentimentCacheMap) (now : Int) (k : String) (e : BulkCacheEntry),
      sc k = some e → sentimentCacheDuration ≤ now - e.timestamp →
        bulkCacheLookup sc now k = none) := by
  refine ⟨?_, ?_, ?_, ?_, ?_⟩
  · intro c now a s
    cases hc : c (generateArticleHash a) with
    | none =>
      simp only [articleCacheLookup, hc]
      constructor
      · intro hfalse; exact Option.noConfusion hfalse
      · rintro ⟨e2, he2, -, -⟩; exact Option.noConfusion he2
    | some e =>
      simp only [articleCacheLookup, hc]
      split_ifs with ht
      · constructor
        · intro hsome
          exact ⟨e, rfl, ht, Option.some.inj hsome⟩
        · rintro ⟨e2, he2, -, hs2⟩
          cases Option.some.inj he2
          exact congrArg Option.some hs2
      · constructor
        · intro hfalse; exact hfalse.elim
        · rintro ⟨e2, he2, hlt2, -⟩
          cases Option.some.inj he2
          exact absurd hlt2 ht
  · intro t0 s a
    simp only [articleCacheLookup, if_pos rfl]
    have hge : ¬(t0 + articleCacheDuration + 1 - t0 < articleCacheDuration) := by omega
    simp [hge]
  · intro st t1 t2 a h12
    cases hc : st.individualArticleCache (generateArticleHash a) with
    | none => simp [articleCacheLookup, cleanupSentimentCache, hc]
    | some e =>
      by_cases hswe : t1 - e.timestamp > articleCacheDuration
      · have h2 : ¬(t2 - e.timestamp < articleCacheDuration) := by omega
        simp [articleCacheLookup, cleanupSentimentCache, hc, hswe, h2]
      · simp [articleCacheLookup, cleanupSentimentCache, hc, hswe]
  · intro st t1 t2 k h12
    cases hc : st.sentimentCache k with
    | none => simp [bulkCacheLookup, cleanupSentimentCache, hc]
    | some e =>
      by_cases hswe : t1 - e.timestamp > sentimentCacheDuration
      · have h2 : ¬(t2 - e.timestamp < sentimentCacheDuration) := by omega
        simp [bulkCacheLookup, cleanupSentimentCache, hc, hswe, h2]
      · simp [bulkCacheLookup, cleanupSentimentCache, hc, hswe]
  · intro sc now k e he hold
    simp only [bulkCacheLookup, he]
    have h2 : ¬(now - e.timestamp < sentimentCacheDuration) := by omega
    simp [h2]

/-- Example article, cache states and bulk cache used by witnesses. -/
def exArticle : Article := ⟨"id1", "title", "text"⟩

/-- A per-item cache holding one entry for `exArticle` written at time 0. -/
def exArticleCache : ArticleCache :=
  fun k => if k = generateArticleHash exArticle then some ⟨0, ⟨.positive, 1, "ok"⟩⟩ else none

/-- A cache-pair state for the sweep-independence witness. -/
def exBulkState : BulkState :=
  ⟨exArticleCache, fun _ => none⟩

/-- A bulk cache holding one entry under key `k0` written at time 0. -/
def exSentimentCache : SentimentCacheMap :=
  fun k => if k = "k0" then some ⟨0, [⟨.neutral, 0, "x"⟩]⟩ else none

/-- Witness for C5 at concrete inputs. -/
theorem sentiment_cache_ttl_lazy_expiry_witness :
    articleCacheLookup exArticleCache (0 + articleCacheDuration + 1) exArticle = none
  ∧ articleCacheLookup (cleanupSentimentCache 10 exBulkState).individualArticleCache 20 exArticle =
      articleCacheLookup exBulkState.individualArticleCache 20 exArticle
  ∧ bulkCacheLookup exSentimentCache 3600000 "k0" = none := by
  refine ⟨?_, ?_, ?_⟩
  · exact sentiment_cache_ttl_lazy_expiry.2.1 0 ⟨.positive, 1, "ok"⟩ exArticle
  · exact sentiment_cache_ttl_lazy_expiry.2.2.1 exBulkState 10 20 exArticle (by norm_num)
  · exact sentiment_cache_ttl_lazy_expiry.2.2.2.2 exSentimentCache 3600000 "k0"
      ⟨0, [⟨.neutral, 0, "x"⟩]⟩ (by rfl) (by norm_num [sentimentCacheDuration])

/-! ## Claim C6: usage-tracker monotonicity and per-operation daily reset -/

/-- No single usage-tracker operation decreases `totalCalls`. -/
theorem applyUsageOp_totalCalls_le (s : UsageStats) (op : UsageOp) :
    s.totalCalls ≤ (applyUsageOp s op).totalCalls := by
  cases op with
  | call d now =>
    simp only [applyUsageOp, trackApiCall, checkDailyReset]
    split_ifs <;> simp
  | result success errQuota errRate tokens =>
    simp only [applyUsageOp, trackApiResult]
    split_ifs <;> simp
  | stats d =>
    simp only [applyUsageOp, getUsageStats, checkDailyReset]
    split_ifs <;> simp

/-- C6: `totalCalls` is monotone non-decreasing across any operation sequence;
a stats read on a new calendar day reports `todaysCalls = 0` and stores the
new date without touching `totalCalls`; a call record on a new calendar day
yields `todaysCalls = 1` (the reset applied before the increment) and stores
the new date; and both the read and the record perform the daily-reset check
themselves rather than relying on a timer. -/
theorem usageTracker_monotone_daily_reset :
    (∀ (s : UsageStats) (ops : List UsageOp), s.totalCalls ≤ (runUsageOps s ops).totalCalls)
  ∧ (∀ (s : UsageStats) (d : String), s.lastResetDate ≠ d →
      (getUsageStats d s).1.todaysCalls = 0 ∧ (getUsageStats d s).1.lastResetDate = d ∧
        (getUsageStats d s).1.totalCalls = s.totalCalls)
  ∧ (∀ (s : UsageStats) (d : String) (now : Int), s.lastResetDate ≠ d →
      (trackApiCall d now s).todaysCalls = 1 ∧ (trackApiCall d now s).lastResetDate = d ∧
        (trackApiCall d now s).totalCalls = s.totalCalls + 1)
  ∧ (∀ (s : UsageStats) (d : String),
      (getUsageStats d s).1 = checkDailyReset d s ∧ (getUsageStats d s).2 = checkDailyReset d s)
  ∧ (∀ (s : UsageStats) (d : String) (now : Int),
      (trackApiCall d now s).todaysCalls = (checkDailyReset d s).todaysCalls + 1 ∧
        (trackApiCall d now s).totalCalls = (checkDailyReset d s).totalCalls + 1) := by
  refine ⟨?_, ?_, ?_, ?_, ?_⟩
  · intro s ops
    induction ops generalizing s with
    | nil => exact le_rfl
    | cons op ops ih =>
      exact le_trans (applyUsageOp_totalCalls_le s op) (ih (applyUsageOp s op))
  · intro s d hd
    simp [getUsageStats, checkDailyReset, hd]
  · intro s d now hd
    simp [trackApiCall, checkDailyReset, hd]
  · intro s d
    exact ⟨rfl, rfl⟩
  · intro s d now
    exact ⟨rfl, rfl⟩

/-- A concrete usage-tracker state for the C6 witness. -/
def exUsageStats : UsageStats :=
  ⟨5, 3, 1, 0, 0, 0, 0, 4, "Mon Jan 01 2024"⟩

/-- Witness for C6 at a concrete day boundary. -/
theorem usageTracker_monotone_daily_reset_witness :
    (getUsageStats ("Tue Jan 02 2024") exUsageStats).1.todaysCalls = 0
  ∧ (trackApiCall ("Tue Jan 02 2024") 99 exUsageStats).todaysCalls = 1
  ∧ exUsageStats.totalCalls ≤
      (runUsageOps exUsageStats [.call ("Tue Jan 02 2024") 99, .stats ("Tue Jan 02 2024")]).totalCalls := by
  refine ⟨?_, ?_, ?_⟩
  · exact (usageTracker_monotone_daily_reset.2.1 exUsageStats ("Tue Jan 02 2024") (by decide)).1
  · exact (usageTracker_monotone_daily_reset.2.2.1 exUsageStats ("Tue Jan 02 2024") 99 (by decide)).1
  · exact usageTracker_monotone_daily_reset.1 exUsageStats _

/-! ## Claim C7: determinism and order-sensitivity of `generateContentHash` -/

/-- Counterexample to C7 as stated: permuting a list does not always change
the key.  The titles `Aa` and `BB` have equal length and equal rolling hash
(`31*65+97 = 31*66+66 = 2112`), so swapping the two articles below leaves the
joined content's 32-bit hash — and therefore the cache key — unchanged, even
though the two lists are distinct permutations of each other. -/
theorem generateContentHash_perm_collision :
    ([⟨"", "Aa", "x"⟩, ⟨"", "BB", "x"⟩] : List Article) ≠ [⟨"", "BB", "x"⟩, ⟨"", "Aa", "x"⟩]
  ∧ List.Perm ([⟨"", "Aa", "x"⟩, ⟨"", "BB", "x"⟩] : List Article)
      [⟨"", "BB", "x"⟩, ⟨"", "Aa", "x"⟩]
  ∧ generateContentHash [⟨"", "Aa", "x"⟩, ⟨"", "BB", "x"⟩] =
      generateContentHash [⟨"", "BB", "x"⟩, ⟨"", "Aa", "x"⟩] := by
  refine ⟨by decide, ?_, by decide⟩
  exact List.Perm.swap (⟨"", "BB", "x"⟩ : Article) (⟨"", "Aa", "x"⟩ : Article) []

/-- C7 amended: `generateContentHash` is deterministic — any two article lists
with identical (title, summary) pairs in identical order (ids may differ)
produce an identical key — and order can change the key (witnessed by a
concrete pair of reorderings), but a permutation is not guaranteed to change
it, since the 32-bit rolling hash admits collisions between reorderings. -/
theorem generateContentHash_deterministic_order_sensitive
    (l1 l2 : List Article)
    (h : l1.map (fun a => (a.title, a.summary)) = l2.map (fun a => (a.title, a.summary))) :
    generateContentHash l1 = generateContentHash l2
  ∧ generateContentHash [⟨"", "a", "s"⟩, ⟨"", "b", "s"⟩] ≠
      generateContentHash [⟨"", "b", "s"⟩, ⟨"", "a", "s"⟩] := by
  constructor
  · have e : ∀ l : List Article,
        l.map (fun a => a.title ++ ("|") ++ a.summary) =
          (l.map (fun a => (a.title, a.summary))).map (fun p => p.1 ++ ("|") ++ p.2) := by
      intro l; rw [List.map_map]; rfl
    unfold generateContentHash
    rw [e l1, e l2, h]
  · decide

/-- Witness for C7's amended theorem: identical pairs with different ids hash
identically. -/
theorem generateContentHash_deterministic_order_sensitive_witness :
    generateContentHash [⟨"id1", "t", "s"⟩] = generateContentHash [⟨"id2", "t", "s"⟩]
  ∧ generateContentHash [⟨"", "a", "s"⟩, ⟨"", "b", "s"⟩] ≠
      generateContentHash [⟨"", "b", "s"⟩, ⟨"", "a", "s"⟩] :=
  generateContentHash_deterministic_order_sensitive
    [⟨"id1", "t", "s"⟩] [⟨"id2", "t", "s"⟩] rfl

/-! ## Claims C4 and C9: the aggregation function -/

/-- The category produced by `calculateOverallSentiment` on a non-empty rated
list is given by the source's if-chain over the weighted scores. -/
theorem calculateOverallSentiment_label_eq (articles : List (Option Sentiment))
    (h : ¬(validSentiments articles).length = 0) :
    (calculateOverallSentiment articles).overallSentiment =
      (if (weightedScoresOf (validSentiments articles)).positive >
            (weightedScoresOf (validSentiments articles)).negative ∧
          (weightedScoresOf (validSentiments articles)).positive >
            (weightedScoresOf (validSentiments articles)).neutral then
        SentimentLabel.positive
      else if (weightedScoresOf (validSentiments articles)).negative >
            (weightedScoresOf (validSentiments articles)).positive ∧
          (weightedScoresOf (validSentiments articles)).negative >
            (weightedScoresOf (validSentiments articles)).neutral then
        SentimentLabel.negative
      else SentimentLabel.neutral) := by
  simp only [calculateOverallSentiment]
  split_ifs with h0 hp _hn <;> first | exact absurd h0 h | rfl

/-- C4: on every input, the overall category is the category whose
confidence-weighted score strictly exceeds both others when one exists, and is
neutral when no category strictly exceeds both others; in particular
positive(0.9), positive(0.8), neutral(0.5) aggregates to positive, and an
empty rated list yields neutral with confidence 0. -/
theorem calculateOverallSentiment_strict_winner (articles : List (Option Sentiment)) :
    ((weightedScoresOf (validSentiments articles)).positive >
          (weightedScoresOf (validSentiments articles)).negative ∧
        (weightedScoresOf (validSentiments articles)).positive >
          (weightedScoresOf (validSentiments articles)).neutral →
      (calculateOverallSentiment articles).overallSentiment = SentimentLabel.positive)
  ∧ ((weightedScoresOf (validSentiments articles)).negative >
          (weightedScoresOf (validSentiments articles)).positive ∧
        (weightedScoresOf (validSentiments articles)).negative >
          (weightedScoresOf (validSentiments articles)).neutral →
      (calculateOverallSentiment articles).overallSentiment = SentimentLabel.negative)
  ∧ ((weightedScoresOf (validSentiments articles)).neutral >
          (weightedScoresOf (validSentiments articles)).positive ∧
        (weightedScoresOf (validSentiments articles)).neutral >
          (weightedScoresOf (validSentiments articles)).negative →
      (calculateOverallSentiment articles).overallSentiment = SentimentLabel.neutral)
  ∧ (¬((weightedScoresOf (validSentiments articles)).positive >
          (weightedScoresOf (validSentiments articles)).negative ∧
        (weightedScoresOf (validSentiments articles)).positive >
          (weightedScoresOf (validSentiments articles)).neutral) ∧
      ¬((weightedScoresOf (validSentiments articles)).negative >
          (weightedScoresOf (validSentiments articles)).positive ∧
        (weightedScoresOf (validSentiments articles)).negative >
          (weightedScoresOf (validSentiments articles)).neutral) ∧
      ¬((weightedScoresOf (validSentiments articles)).neutral >
          (weightedScoresOf (validSentiments articles)).positive ∧
        (weightedScoresOf (validSentiments articles)).neutral >
          (weightedScoresOf (validSentiments articles)).negative) →
      (calculateOverallSentiment articles).overallSentiment = SentimentLabel.neutral)
  ∧ (calculateOverallSentiment
        [some ⟨.positive, 0.9, "a"⟩, some ⟨.positive, 0.8, "b"⟩,
          some ⟨.neutral, 0.5, "c"⟩]).overallSentiment = SentimentLabel.positive
  ∧ (calculateOverallSentiment []).overallSentiment = SentimentLabel.neutral
  ∧ (calculateOverallSentiment []).confidence = 0 := by
  by_cases h : (validSentiments articles).length = 0
  · have hnil : validSentiments articles = [] := List.length_eq_zero.mp h
    have hw : weightedScoresOf (validSentiments articles) = ⟨0, 0, 0⟩ := by
      rw [hnil]; rfl
    have hneu : (calculateOverallSentiment articles).overallSentiment =
        SentimentLabel.neutral := by
      simp only [calculateOverallSentiment, if_pos h]
    refine ⟨?_, ?_, ?_, fun _ => hneu, by decide, by decide, by decide⟩
    all_goals
      rw [hw]
      rintro ⟨h1, -⟩
      exact absurd h1 (lt_irrefl 0)
  · have heq := calculateOverallSentiment_label_eq articles h
    refine ⟨?_, ?_, ?_, ?_, by decide, by decide, by decide⟩
    · intro hw
      rw [heq, if_pos hw]
    · intro hw
      have hn1 : ¬((weightedScoresOf (validSentiments articles)).positive >
            (weightedScoresOf (validSentiments articles)).negative ∧
          (weightedScoresOf (validSentiments articles)).positive >
            (weightedScoresOf (validSentiments articles)).neutral) := by
        rintro ⟨h1, -⟩
        exact absurd h1 (not_lt_of_gt hw.1)
      rw [heq, if_neg hn1, if_pos hw]
    · intro hw
      have hn1 : ¬((weightedScoresOf (validSentiments articles)).positive >
            (weightedScoresOf (validSentiments articles)).negative ∧
          (weightedScoresOf (validSentiments articles)).positive >
            (weightedScoresOf (validSentiments articles)).neutral) := by
        rintro ⟨-, h2⟩
        exact absurd h2 (not_lt_of_gt hw.1)
      have hn2 : ¬((weightedScoresOf (validSentiments articles)).negative >
            (weightedScoresOf (validSentiments articles)).positive ∧
          (weightedScoresOf (validSentiments articles)).negative >
            (weightedScoresOf (validSentiments articles)).neutral) := by
        rintro ⟨-, h2⟩
        exact absurd h2 (not_lt_of_gt hw.2)
      rw [heq, if_neg hn1, if_neg hn2]
    · rintro ⟨h1, h2, -⟩
      rw [heq, if_neg h1, if_neg h2]

/-- The example batch of C4: positive(0.9), positive(0.8), neutral(0.5). -/
def exC4 : List (Option Sentiment) :=
  [some ⟨.positive, 0.9, "a"⟩, some ⟨.positive, 0.8, "b"⟩, some ⟨.neutral, 0.5, "c"⟩]

/-- Witness for C4: the strict-winner implication applied at the spec's
concrete batch. -/
theorem calculateOverallSentiment_strict_winner_witness :
    (calculateOverallSentiment exC4).overallSentiment = SentimentLabel.positive :=
  (calculateOverallSentiment_strict_winner exC4).1 (by decide)

/-- `dominantSentiment` unfolded: the stable count-descending sort of the
three breakdown entries puts first the highest count, ties resolved in the
original `positive, negative, neutral` entry order. -/
theorem dominantSentiment_eq (b : Breakdown) :
    dominantSentiment b =
      (if b.neutral > b.negative then
        (if b.neutral > b.positive then "neutral" else "positive")
      else
        (if b.negative > b.positive then "negative" else "positive")) := by
  by_cases h1 : b.neutral > b.negative
  · by_cases h2 : b.neutral > b.positive
    · simp [dominantSentiment, sortDescByCount, insertDescByCount, h1, h2]
    · simp [dominantSentiment, sortDescByCount, insertDescByCount, h1, h2]
  · by_cases h2 : b.negative > b.positive
    · simp [dominantSentiment, sortDescByCount, insertDescByCount, h1, h2]
    · simp [dominantSentiment, sortDescByCount, insertDescByCount, h1, h2]

/-- The example batch of C9: positive(0.9), negative(0.3), negative(0.3);
its weighted winner is positive (0.9 against 0.6 and 0), while its raw-count
dominant category is negative (2 of 3 articles). -/
def exC9 : List (Option Sentiment) :=
  [some ⟨.positive, 0.9, "a"⟩, some ⟨.negative, 0.3, "b"⟩, some ⟨.negative, 0.3, "c"⟩]

/-- Counterexample to C9 as stated: the qualitative phrase is tied to the
category with the highest raw breakdown count, not to the winning category of
the overall result.  On `exC9` the overall category is positive, yet the
summary ends in the bearish phrase and is not the string the claim's
bullish-for-positive rule would produce. -/
theorem calculateOverallSentiment_phrase_mismatch :
    (calculateOverallSentiment exC9).overallSentiment = SentimentLabel.positive
  ∧ (calculateOverallSentiment exC9).summary =
      "Market sentiment appears positive based on 3 articles. Breakdown: 1 positive, 2 negative, 0 neutral. Bearish concerns present."
  ∧ (calculateOverallSentiment exC9).summary ≠
      "Market sentiment appears positive based on 3 articles. Breakdown: 1 positive, 2 negative, 0 neutral. Bullish indicators dominate." := by
  refine ⟨by decide, by decide, by decide⟩

/-- C9 amended: for every non-empty rated list the summary is the template
citing the rated-article count, the per-category breakdown counts and a
qualitative phrase — but the phrase is tied to the category with the highest
raw breakdown count (ties favouring positive, then negative), which may
differ from the overall result's weighted winning category. -/
theorem calculateOverallSentiment_summary_dominant (articles : List (Option Sentiment))
    (h : validSentiments articles ≠ []) :
    (calculateOverallSentiment articles).summary =
      mkSummary (calculateOverallSentiment articles).overallSentiment
        (validSentiments articles).length (breakdownOf (validSentiments articles))
  ∧ (∀ b : Breakdown,
      (b.positive ≥ b.negative ∧ b.positive ≥ b.neutral → dominantSentiment b = "positive")
    ∧ (b.negative > b.positive ∧ b.negative ≥ b.neutral → dominantSentiment b = "negative")
    ∧ (b.neutral > b.positive ∧ b.neutral > b.negative → dominantSentiment b = "neutral"))
  ∧ dominantPhrase ("positive") = "Bullish indicators dominate."
  ∧ dominantPhrase ("negative") = "Bearish concerns present."
  ∧ dominantPhrase ("neutral") = "Mixed signals in the market." := by
  have hlen : ¬(validSentiments articles).length = 0 := by
    intro h0
    exact h (List.length_eq_zero.mp h0)
  refine ⟨?_, ?_, by decide, by decide, by decide⟩
  · simp only [calculateOverallSentiment]
    split_ifs with h0 hp _hn <;> first | exact absurd h0 hlen | rfl
  · intro b
    refine ⟨?_, ?_, ?_⟩ <;>
      · rintro ⟨h1, h2⟩
        rw [dominantSentiment_eq]
        split_ifs <;> first | rfl | omega

/-- Witness for C9's amended theorem at the concrete `exC9` batch. -/
theorem calculateOverallSentiment_summary_dominant_witness :
    (calculateOverallSentiment exC9).summary =
      mkSummary (calculateOverallSentiment exC9).overallSentiment
        (validSentiments exC9).length (breakdownOf (validSentiments exC9)) :=
  (calculateOverallSentiment_summary_dominant exC9 (by decide)).1

/-! ## Structural lemmas about the cache check and the merge -/

/-- The `cachedResults` slots are exactly the per-article cache probes, one
per input article in input order. -/
theorem cacheCheckAux_cachedResults (c : ArticleCache) (now : Int) (arts : List Article) :
    ∀ i : Nat, (cacheCheckAux c now i arts).cachedResults =
      arts.map (articleCacheLookup c now) := by
  induction arts with
  | nil => intro i; rfl
  | cons a rest ih =>
    intro i
    simp only [cacheCheckAux, List.map_cons]
    cases h : articleCacheLookup c now a with
    | some s => simp [h, ih (i + 1)]
    | none => simp [h, ih (i + 1)]

/-- The miss counter equals the number of collected uncached articles. -/
theorem cacheCheckAux_uncached_length (c : ArticleCache) (now : Int) (arts : List Article) :
    ∀ i : Nat, (cacheCheckAux c now i arts).uncachedArticles.length =
      (cacheCheckAux c now i arts).misses := by
  induction arts with
  | nil => intro i; rfl
  | cons a rest ih =>
    intro i
    simp only [cacheCheckAux]
    cases h : articleCacheLookup c now a with
    | some s => simp [h, ih (i + 1)]
    | none => simp [h, ih (i + 1)]

/-- When every article probes to a valid cache entry, the miss counter is 0. -/
theorem cacheCheckAux_misses_zero (c : ArticleCache) (now : Int) (arts : List Article)
    (h : ∀ a ∈ arts, (articleCacheLookup c now a).isSome) :
    ∀ i : Nat, (cacheCheckAux c now i arts).misses = 0 := by
  induction arts with
  | nil => intro i; rfl
  | cons a rest ih =>
    intro i
    simp only [cacheCheckAux]
    cases hl : articleCacheLookup c now a with
    | some s =>
      simp only [hl]
      exact ih (fun a2 ha2 => h a2 (List.mem_cons_of_mem _ ha2)) (i + 1)
    | none =>
      have := h a (List.mem_cons_self _ _)
      rw [hl] at this
      exact absurd this (by simp)

/-- Re-attaching `some` to defaulted entries recovers a list of present
options. -/
theorem map_getD_map_some (d : Sentiment) (l : List (Option Sentiment))
    (h : ∀ o ∈ l, o.isSome) :
    (l.map (fun r => r.getD d)).map some = l := by
  induction l with
  | nil => rfl
  | cons o rest ih =>
    simp only [List.map_cons, List.cons.injEq]
    constructor
    · cases o with
      | some v => rfl
      | none => exact absurd (h none (List.mem_cons_self _ _)) (by simp)
    · exact ih (fun o2 ho2 => h o2 (List.mem_cons_of_mem _ ho2))

/-- The merge preserves the slot count of the cache check. -/
theorem mergeResults_length (cr : List (Option Sentiment)) :
    ∀ ns : List Sentiment, (mergeResults cr ns).length = cr.length := by
  induction cr with
  | nil => intro ns; rfl
  | cons o rest ih =>
    intro ns
    cases o with
    | some c => simp [mergeResults, ih]
    | none =>
      cases ns with
      | nil => simp [mergeResults, ih]
      | cons n ns2 => simp [mergeResults, ih]

/-- A cached slot survives the merge unchanged at its position. -/
theorem mergeResults_get?_cached (cr : List (Option Sentiment)) :
    ∀ (ns : List Sentiment) (k : Nat) (s : Sentiment),
      cr.get? k = some (some s) → (mergeResults cr ns).get? k = some s := by
  induction cr with
  | nil => intro ns k s h; cases h
  | cons o rest ih =>
    intro ns k s h
    cases k with
    | zero =>
      rw [List.get?_cons_zero] at h
      cases Option.some.inj h
      rfl
    | succ k2 =>
      rw [List.get?_cons_succ] at h
      cases o with
      | some c =>
        show (c :: mergeResults rest ns).get? (k2 + 1) = some s
        rw [List.get?_cons_succ]
        exact ih ns k2 s h
      | none =>
        cases ns with
        | nil =>
          show (jsUndefinedSentiment :: mergeResults rest []).get? (k2 + 1) = some s
          rw [List.get?_cons_succ]
          exact ih [] k2 s h
        | cons n ns2 =>
          show (n :: mergeResults rest ns2).get? (k2 + 1) = some s
          rw [List.get?_cons_succ]
          exact ih ns2 k2 s h

/-- Every collected uncached index is at least the loop's starting index. -/
theorem cacheCheckAux_uncached_index_ge (c : ArticleCache) (now : Int) (arts : List Article) :
    ∀ (i j : Nat) (p : Nat × Article),
      (cacheCheckAux c now i arts).uncachedArticles.get? j = some p → i ≤ p.1 := by
  induction arts with
  | nil => intro i j p h; cases h
  | cons a rest ih =>
    intro i j p h
    cases hl : articleCacheLookup c now a with
    | some s =>
      simp only [cacheCheckAux, hl] at h
      exact Nat.le_of_succ_le (ih (i + 1) j p h)
    | none =>
      simp only [cacheCheckAux, hl] at h
      cases j with
      | zero =>
        rw [List.get?_cons_zero] at h
        cases Option.some.inj h
        exact Nat.le_refl i
      | succ j2 =>
        rw [List.get?_cons_succ] at h
        exact Nat.le_of_succ_le (ih (i + 1) j2 p h)

/-- The merge routes the `j`-th entry of `newSentiments` to the stored index
of the `j`-th uncached article. -/
theorem cacheCheckAux_merge_uncached (c : ArticleCache) (now : Int) (arts : List Article) :
    ∀ (i : Nat) (ns : List Sentiment) (j : Nat) (p : Nat × Article) (v : Sentiment),
      (cacheCheckAux c now i arts).uncachedArticles.get? j = some p →
      ns.get? j = some v →
      (mergeResults (cacheCheckAux c now i arts).cachedResults ns).get? (p.1 - i) = some v := by
  induction arts with
  | nil => intro i ns j p v h1 h2; cases h1
  | cons a rest ih =>
    intro i ns j p v h1 h2
    cases hl : articleCacheLookup c now a with
    | some s =>
      simp only [cacheCheckAux, hl] at h1 ⊢
      have hge := cacheCheckAux_uncached_index_ge c now rest (i + 1) j p h1
      have hidx : p.1 - i = (p.1 - (i + 1)) + 1 := by omega
      rw [hidx]
      show (s :: mergeResults (cacheCheckAux c now (i + 1) rest).cachedResults ns).get?
          ((p.1 - (i + 1)) + 1) = some v
      rw [List.get?_cons_succ]
      exact ih (i + 1) ns j p v h1 h2
    | none =>
      simp only [cacheCheckAux, hl] at h1 ⊢
      cases j with
      | zero =>
        rw [List.get?_cons_zero] at h1
        cases Option.some.inj h1
        cases ns with
        | nil => simp at h2
        | cons n ns2 =>
          rw [List.get?_cons_zero] at h2
          show (n :: mergeResults (cacheCheckAux c now (i + 1) rest).cachedResults ns2).get?
              (i - i) = some v
          rw [Nat.sub_self, List.get?_cons_zero]
          exact h2
      | succ j2 =>
        rw [List.get?_cons_succ] at h1
        have hge := cacheCheckAux_uncached_index_ge c now rest (i + 1) j2 p h1
        cases ns with
        | nil => simp at h2
        | cons n ns2 =>
          rw [List.get?_cons_succ] at h2
          have hidx : p.1 - i = (p.1 - (i + 1)) + 1 := by omega
          rw [hidx]
          show (n :: mergeResults (cacheCheckAux c now (i + 1) rest).cachedResults ns2).get?
              ((p.1 - (i + 1)) + 1) = some v
          rw [List.get?_cons_succ]
          exact ih (i + 1) ns2 j2 p v h1 h2

/-- `padResults` puts at slot `j` the parsed entry at offset `i + j`, or the
neutral placeholder when the parsed array has no such entry. -/
theorem padResults_get? (rs : List Sentiment) (arts : List Article) :
    ∀ (i j : Nat), j < arts.length →
      (padResults rs i arts).get? j = some ((rs.get? (i + j)).getD unanalyzedPlaceholder) := by
  induction arts with
  | nil => intro i j h; exact absurd h (by simp)
  | cons a rest ih =>
    intro i j h
    cases j with
    | zero => rfl
    | succ j2 =>
      show (padResults rs (i + 1) rest).get? j2 =
        some ((rs.get? (i + (j2 + 1))).getD unanalyzedPlaceholder)
      have hj : j2 < rest.length := by
        rw [List.length_cons] at h
        omega
      rw [ih (i + 1) j2 hj]
      have heq : i + 1 + j2 = i + (j2 + 1) := by omega
      rw [heq]

/-! ## Claim C1: a fully cached batch makes no external call -/

/-- C1: when every input article has a valid (written less than 24 hours
before the call) per-item cache entry, `analyzeBulkSentiment` performs zero
external-model invocations and returns exactly the cached sentiments, one per
input article, in input order. -/
theorem analyzeBulkSentiment_full_cache_no_api (st : BulkState) (now : Int)
    (modelPresent disabled : Bool) (response : ModelResponse) (articles : List Article)
    (h : ∀ a ∈ articles, (articleCacheLookup st.individualArticleCache now a).isSome) :
    (analyzeBulkSentiment st now modelPresent disabled response articles).apiCalls = 0
  ∧ (analyzeBulkSentiment st now modelPresent disabled response articles).results.map some =
      articles.map (articleCacheLookup st.individualArticleCache now)
  ∧ (analyzeBulkSentiment st now modelPresent disabled response articles).results.length =
      articles.length := by
  have hm : (getCachedArticleSentiments st.individualArticleCache now articles).misses = 0 :=
    cacheCheckAux_misses_zero st.individualArticleCache now articles h 0
  have hcr : (getCachedArticleSentiments st.individualArticleCache now articles).cachedResults =
      articles.map (articleCacheLookup st.individualArticleCache now) :=
    cacheCheckAux_cachedResults st.individualArticleCache now articles 0
  have key : analyzeBulkSentiment st now modelPresent disabled response articles =
      ⟨(getCachedArticleSentiments st.individualArticleCache now articles).cachedResults.map
          (fun r => r.getD jsUndefinedSentiment), st, 0, false⟩ := by
    simp only [analyzeBulkSentiment, hm, if_pos]
  have hsome : ∀ o ∈ (getCachedArticleSentiments st.individualArticleCache now articles).cachedResults,
      o.isSome := by
    rw [hcr]
    intro o ho
    obtain ⟨a, ha, rfl⟩ := List.mem_map.mp ho
    exact h a ha
  refine ⟨by rw [key], ?_, ?_⟩
  · rw [key]
    show ((getCachedArticleSentiments st.individualArticleCache now articles).cachedResults.map
        (fun r => r.getD jsUndefinedSentiment)).map some = _
    rw [map_getD_map_some jsUndefinedSentiment _ hsome, hcr]
  · rw [key]
    show ((getCachedArticleSentiments st.individualArticleCache now articles).cachedResults.map
        (fun r => r.getD jsUndefinedSentiment)).length = _
    rw [List.length_map, hcr, List.length_map]

/-- The cache state and articles of the C1 witness: one article with a fresh
entry written at time 0, read at time 5. -/
def exArticleC1 : Article := ⟨"a1", "t", "s"⟩

/-- Per-item cache for the C1 witness. -/
def exCacheC1 : ArticleCache :=
  fun k => if k = generateArticleHash exArticleC1 then some ⟨0, ⟨.positive, 1, "good"⟩⟩ else none

/-- Cache-pair state for the C1 witness. -/
def exStateC1 : BulkState := ⟨exCacheC1, fun _ => none⟩

/-- Witness for C1 at a concrete fully cached batch. -/
theorem analyzeBulkSentiment_full_cache_no_api_witness :
    (analyzeBulkSentiment exStateC1 5 true false .failure [exArticleC1]).apiCalls = 0
  ∧ (analyzeBulkSentiment exStateC1 5 true false .failure [exArticleC1]).results.map some =
      [exArticleC1].map (articleCacheLookup exStateC1.individualArticleCache 5)
  ∧ (analyzeBulkSentiment exStateC1 5 true false .failure [exArticleC1]).results.length =
      [exArticleC1].length :=
  analyzeBulkSentiment_full_cache_no_api exStateC1 5 true false .failure [exArticleC1] (by decide)

/-! ## Claim C8: unavailable model degrades to placeholders -/

/-- C8: with at least one cache miss and the external model unavailable
(disabled by configuration or missing credentials), `analyzeBulkSentiment`
returns a full-length result holding each cached sentiment in its slot and the
neutral, confidence-0, reason-annotated placeholder in each uncached slot,
makes no external call, and does not fail. -/
theorem analyzeBulkSentiment_model_unavailable_placeholders (st : BulkState) (now : Int)
    (modelPresent disabled : Bool) (response : ModelResponse) (articles : List Article)
    (hun : modelPresent = false ∨ disabled = true)
    (hmiss : (getCachedArticleSentiments st.individualArticleCache now articles).misses ≠ 0) :
    (analyzeBulkSentiment st now modelPresent disabled response articles).results =
      articles.map (fun a => (articleCacheLookup st.individualArticleCache now a).getD
        (geminiUnavailablePlaceholder disabled))
  ∧ (analyzeBulkSentiment st now modelPresent disabled response articles).results.length =
      articles.length
  ∧ (analyzeBulkSentiment st now modelPresent disabled response articles).apiCalls = 0
  ∧ (geminiUnavailablePlaceholder disabled).sentiment = SentimentLabel.neutral
  ∧ (geminiUnavailablePlaceholder disabled).confidence = 0
  ∧ (geminiUnavailablePlaceholder disabled).summary ≠ "" := by
  have hcr : (getCachedArticleSentiments st.individualArticleCache now articles).cachedResults =
      articles.map (articleCacheLookup st.individualArticleCache now) :=
    cacheCheckAux_cachedResults st.individualArticleCache now articles 0
  have hbool : (!modelPresent || disabled) = true := by
    rcases hun with h1 | h1 <;> simp [h1]
  have key : analyzeBulkSentiment st now modelPresent disabled response articles =
      ⟨(getCachedArticleSentiments st.individualArticleCache now articles).cachedResults.map
          (fun r => r.getD (geminiUnavailablePlaceholder disabled)), st, 0, false⟩ := by
    simp only [analyzeBulkSentiment, hmiss, hbool, if_false, if_true, ite_true, ite_false]
  refine ⟨?_, ?_, by rw [key], rfl, rfl, ?_⟩
  · rw [key]
    show (getCachedArticleSentiments st.individualArticleCache now articles).cachedResults.map
        (fun r => r.getD (geminiUnavailablePlaceholder disabled)) = _
    rw [hcr, List.map_map]
    rfl
  · rw [key]
    show ((getCachedArticleSentiments st.individualArticleCache now articles).cachedResults.map
        (fun r => r.getD (geminiUnavailablePlaceholder disabled))).length = _
    rw [List.length_map, hcr, List.length_map]
  · cases disabled <;> decide

/-- Articles of the C8 witness: the first has a fresh cache entry, the second
has none. -/
def exArticleC8 : Article := ⟨"b2", "other", "news"⟩

/-- Witness for C8: one cached article, one uncached, model disabled. -/
theorem analyzeBulkSentiment_model_unavailable_placeholders_witness :
    (analyzeBulkSentiment exStateC1 5 true true .failure [exArticleC1, exArticleC8]).results =
      [exArticleC1, exArticleC8].map
        (fun a => (articleCacheLookup exStateC1.individualArticleCache 5 a).getD
          (geminiUnavailablePlaceholder true))
  ∧ (analyzeBulkSentiment exStateC1 5 true true .failure [exArticleC1, exArticleC8]).results.length =
      [exArticleC1, exArticleC8].length
  ∧ (analyzeBulkSentiment exStateC1 5 true true .failure [exArticleC1, exArticleC8]).apiCalls = 0
  ∧ (geminiUnavailablePlaceholder true).sentiment = SentimentLabel.neutral
  ∧ (geminiUnavailablePlaceholder true).confidence = 0
  ∧ (geminiUnavailablePlaceholder true).summary ≠ "" :=
  analyzeBulkSentiment_model_unavailable_placeholders exStateC1 5 true true .failure
    [exArticleC1, exArticleC8] (Or.inr rfl) (by decide)

/-! ## Claim C2: a short parsed array pads per missing entry -/

/-- On a bulk-cache miss, an array response makes exactly one model call and
produces the per-index padded `newSentiments`, storing them in the bulk
cache. -/
theorem analyzeBulkUncachedStep_array (sc : SentimentCacheMap) (now : Int)
    (rs : List Sentiment) (l : List Article)
    (hb : bulkCacheLookup sc now (generateContentHash l) = none) :
    analyzeBulkUncachedStep sc now (.array rs) l =
      (padResults rs 0 l,
        updateSentimentCache sc (generateContentHash l) ⟨now, padResults rs 0 l⟩, 1) := by
  simp only [analyzeBulkUncachedStep, hb]

/-- C2: with at least one miss, the model available, a bulk-cache miss, and a
model response parsing to an array shorter than the uncached batch, the call
returns a full-length result without surfacing an exception: every cached slot
keeps its cached sentiment, and the slot of the `j`-th uncached article holds
the `j`-th parsed entry as-is when it exists and the neutral
confidence-0 `Unable to analyze sentiment` placeholder otherwise. -/
theorem analyzeBulkSentiment_short_response_pads (st : BulkState) (now : Int)
    (articles : List Article) (rs : List Sentiment)
    (hmiss : (getCachedArticleSentiments st.individualArticleCache now articles).misses ≠ 0)
    (hbulk : bulkCacheLookup st.sentimentCache now
        (generateContentHash
          ((getCachedArticleSentiments st.individualArticleCache now articles).uncachedArticles.map
            (fun p => p.2))) = none)
    (hshort : rs.length <
        (getCachedArticleSentiments st.individualArticleCache now articles).uncachedArticles.length) :
    (analyzeBulkSentiment st now true false (.array rs) articles).results.length = articles.length
  ∧ (∀ (k : Nat) (s : Sentiment),
      (getCachedArticleSentiments st.individualArticleCache now articles).cachedResults.get? k =
          some (some s) →
        (analyzeBulkSentiment st now true false (.array rs) articles).results.get? k = some s)
  ∧ (∀ (j : Nat) (p : Nat × Article),
      (getCachedArticleSentiments st.individualArticleCache now articles).uncachedArticles.get? j =
          some p →
        (analyzeBulkSentiment st now true false (.array rs) articles).results.get? p.1 =
          some ((rs.get? j).getD unanalyzedPlaceholder)) := by
  have hlen0 : 0 <
      (getCachedArticleSentiments st.individualArticleCache now articles).uncachedArticles.length := by
    have h2 : (getCachedArticleSentiments st.individualArticleCache now articles).uncachedArticles.length =
        (getCachedArticleSentiments st.individualArticleCache now articles).misses :=
      cacheCheckAux_uncached_length st.individualArticleCache now articles 0
    omega
  have hstep := analyzeBulkUncachedStep_array st.sentimentCache now rs
    ((getCachedArticleSentiments st.individualArticleCache now articles).uncachedArticles.map
      (fun p => p.2)) hbulk
  have hres : (analyzeBulkSentiment st now true false (.array rs) articles).results =
      mergeResults
        (getCachedArticleSentiments st.individualArticleCache now articles).cachedResults
        (padResults rs 0
          ((getCachedArticleSentiments st.individualArticleCache now articles).uncachedArticles.map
            (fun p => p.2))) := by
    simp only [analyzeBulkSentiment]
    rw [if_neg hmiss, if_neg (by decide : ¬((!true || false) = true)), if_pos hlen0, hstep]
  refine ⟨?_, ?_, ?_⟩
  · rw [hres, mergeResults_length]
    have hcr : (getCachedArticleSentiments st.individualArticleCache now articles).cachedResults =
        articles.map (articleCacheLookup st.individualArticleCache now) :=
      cacheCheckAux_cachedResults st.individualArticleCache now articles 0
    rw [hcr, List.length_map]
  · intro k s hk
    rw [hres]
    exact mergeResults_get?_cached _ _ k s hk
  · intro j p hp
    have hj : j <
        (getCachedArticleSentiments st.individualArticleCache now articles).uncachedArticles.length := by
      by_contra hge
      rw [List.get?_eq_none.mpr (Nat.le_of_not_lt hge)] at hp
      cases hp
    have hns : (padResults rs 0
        ((getCachedArticleSentiments st.individualArticleCache now articles).uncachedArticles.map
          (fun p => p.2))).get? j = some ((rs.get? j).getD unanalyzedPlaceholder) := by
      rw [padResults_get? rs _ 0 j (by rwa [List.length_map])]
      rw [Nat.zero_add]
    have hmain := cacheCheckAux_merge_uncached st.individualArticleCache now articles 0
      (padResults rs 0
        ((getCachedArticleSentiments st.individualArticleCache now articles).uncachedArticles.map
          (fun p => p.2)))
      j p ((rs.get? j).getD unanalyzedPlaceholder) hp hns
    rw [hres]
    rw [Nat.sub_zero] at hmain
    exact hmain

/-- The empty cache-pair state used by the C2 witness. -/
def exEmptyState : BulkState := ⟨fun _ => none, fun _ => none⟩

/-- The three uncached articles of the C2 witness. -/
def exArticlesC2 : List Article := [⟨"1", "a", "x"⟩, ⟨"2", "b", "y"⟩, ⟨"3", "c", "z"⟩]

/-- The length-1 parsed model array of the C2 witness. -/
def exParsedC2 : List Sentiment := [⟨.positive, 1, "one"⟩]

/-- Witness for C2: 3 uncached articles, a 1-element parsed array — slot 0
takes the parsed entry, slots 1 and 2 take the placeholder, the result has
full length. -/
theorem analyzeBulkSentiment_short_response_pads_witness :
    (analyzeBulkSentiment exEmptyState 0 true false (.array exParsedC2) exArticlesC2).results.length =
      exArticlesC2.length
  ∧ (analyzeBulkSentiment exEmptyState 0 true false (.array exParsedC2) exArticlesC2).results.get? 0 =
      some ⟨.positive, 1, "one"⟩
  ∧ (analyzeBulkSentiment exEmptyState 0 true false (.array exParsedC2) exArticlesC2).results.get? 2 =
      some unanalyzedPlaceholder := by
  have h := analyzeBulkSentiment_short_response_pads exEmptyState 0 exArticlesC2 exParsedC2
    (by decide) rfl (by decide)
  refine ⟨h.1, ?_, ?_⟩
  · exact h.2.2 0 (0, ⟨"1", "a", "x"⟩) (by decide)
  · exact h.2.2 2 (2, ⟨"3", "c", "z"⟩) (by decide)

/-! ## Claim C3: fixed-window rate limiting -/

/-- One unfolding step of `runRateLimit`. -/
theorem runRateLimit_cons (window : Int) (maxRequests : Nat) (key : String) (m : RateMap)
    (t : Int) (ts : List Int) :
    runRateLimit window maxRequests key m (t :: ts) =
      ((rateLimitCheck window maxRequests m key t).1 ::
        (runRateLimit window maxRequests key (rateLimitCheck window maxRequests m key t).2 ts).1,
        (runRateLimit window maxRequests key (rateLimitCheck window maxRequests m key t).2 ts).2) :=
  rfl

/-- `runRateLimit` produces one result per call. -/
theorem runRateLimit_length (window : Int) (maxRequests : Nat) (key : String) :
    ∀ (ts : List Int) (m : RateMap),
      (runRateLimit window maxRequests key m ts).1.length = ts.length := by
  intro ts
  induction ts with
  | nil => intro m; rfl
  | cons t ts2 ih =>
    intro m
    rw [runRateLimit_cons, List.length_cons, List.length_cons, ih]

/-- `runRateLimit` distributes over list append. -/
theorem runRateLimit_append (window : Int) (maxRequests : Nat) (key : String) :
    ∀ (l1 l2 : List Int) (m : RateMap),
      (runRateLimit window maxRequests key m (l1 ++ l2)).1 =
        (runRateLimit window maxRequests key m l1).1 ++
          (runRateLimit window maxRequests key
            ((runRateLimit window maxRequests key m l1).2) l2).1
    ∧ (runRateLimit window maxRequests key m (l1 ++ l2)).2 =
        (runRateLimit window maxRequests key
          ((runRateLimit window maxRequests key m l1).2) l2).2 := by
  intro l1
  induction l1 with
  | nil => intro l2 m; exact ⟨rfl, rfl⟩
  | cons t l1' ih =>
    intro l2 m
    constructor
    · show (rateLimitCheck window maxRequests m key t).1 ::
          (runRateLimit window maxRequests key
            (rateLimitCheck window maxRequests m key t).2 (l1' ++ l2)).1 = _
      rw [(ih l2 (rateLimitCheck window maxRequests m key t).2).1]
      rfl
    · show (runRateLimit window maxRequests key
          (rateLimitCheck window maxRequests m key t).2 (l1' ++ l2)).2 = _
      rw [(ih l2 (rateLimitCheck window maxRequests m key t).2).2]
      rfl

/-- Invariant run inside one window: starting from a stored record
`{count := c, resetTime := R}` with `1 ≤ c ≤ max`, a sequence of calls at
times not past `R` yields allowed results with decreasing remaining while
`c + j < max` and rejections afterwards, and leaves the counter at
`min (c + calls) max` with the window unchanged. -/
theorem runRateLimit_within (window : Int) (maxRequests : Nat) (key : String) (R : Int) :
    ∀ (ts : List Int) (c : Nat) (m : RateMap),
      1 ≤ c → c ≤ maxRequests → (∀ t ∈ ts, t ≤ R) → m key = some ⟨c, R⟩ →
      (∀ j, j < ts.length →
        (runRateLimit window maxRequests key m ts).1.get? j =
          some (if c + j < maxRequests then
            ⟨true, (maxRequests : Int) - (c + j) - 1, R⟩
          else ⟨false, 0, R⟩))
      ∧ (runRateLimit window maxRequests key m ts).2 key =
          some ⟨min (c + ts.length) maxRequests, R⟩ := by
  intro ts
  induction ts with
  | nil =>
    intro c m h1 h2 h3 hm
    refine ⟨fun j hj => absurd hj (by simp), ?_⟩
    show m key = some ⟨min (c + 0) maxRequests, R⟩
    rw [Nat.add_zero, Nat.min_eq_left h2]
    exact hm
  | cons t ts2 ih =>
    intro c m h1 h2 h3 hm
    have ht : t ≤ R := h3 t (List.mem_cons_self _ _)
    by_cases hc : c < maxRequests
    · have hkey : rateLimitCheck window maxRequests m key t =
          (⟨true, (maxRequests : Int) - (c + 1), R⟩, updateRateMap m key ⟨c + 1, R⟩) := by
        simp only [rateLimitCheck, hm]
        rw [if_neg (by omega : ¬t > R), if_neg (by omega : ¬c ≥ maxRequests)]
      have hnew : (updateRateMap m key ⟨c + 1, R⟩) key = some ⟨c + 1, R⟩ := by
        simp [updateRateMap]
      obtain ⟨ihres, ihmap⟩ := ih (c + 1) (updateRateMap m key ⟨c + 1, R⟩) (by omega) (by omega)
        (fun t2 ht2 => h3 t2 (List.mem_cons_of_mem _ ht2)) hnew
      constructor
      · intro j hj
        cases j with
        | zero =>
          rw [runRateLimit_cons, List.get?_cons_zero, hkey]
          rw [if_pos (by omega : c + 0 < maxRequests)]
          simp only [Option.some.injEq, RateLimitResult.mk.injEq, true_and, and_true]
          push_cast
          ring
        | succ j2 =>
          have hj2 : j2 < ts2.length := by
            rw [List.length_cons] at hj
            omega
          rw [runRateLimit_cons, List.get?_cons_succ, hkey, ihres j2 hj2]
          have he : c + 1 + j2 = c + (j2 + 1) := by omega
          rw [he]
          congr 1
          split_ifs with hcond
          · simp only [RateLimitResult.mk.injEq, true_and, and_true]
            push_cast
            ring
          · rfl
      · rw [runRateLimit_cons]
        show (runRateLimit window maxRequests key
            (rateLimitCheck window maxRequests m key t).2 ts2).2 key = _
        rw [hkey]
        show (runRateLimit window maxRequests key (updateRateMap m key ⟨c + 1, R⟩) ts2).2 key = _
        rw [ihmap]
        have he : c + 1 + ts2.length = c + (t :: ts2).length := by
          rw [List.length_cons]
          omega
        rw [he]
    · have hkey : rateLimitCheck window maxRequests m key t = (⟨false, 0, R⟩, m) := by
        simp only [rateLimitCheck, hm]
        rw [if_neg (by omega : ¬t > R), if_pos (by omega : c ≥ maxRequests)]
      obtain ⟨ihres, ihmap⟩ := ih c m h1 h2
        (fun t2 ht2 => h3 t2 (List.mem_cons_of_mem _ ht2)) hm
      constructor
      · intro j hj
        cases j with
        | zero =>
          rw [runRateLimit_cons, List.get?_cons_zero, hkey,
            if_neg (by omega : ¬c + 0 < maxRequests)]
        | succ j2 =>
          have hj2 : j2 < ts2.length := by
            rw [List.length_cons] at hj
            omega
          rw [runRateLimit_cons, List.get?_cons_succ, hkey, ihres j2 hj2,
            if_neg (by omega : ¬c + j2 < maxRequests),
            if_neg (by omega : ¬c + (j2 + 1) < maxRequests)]
      · rw [runRateLimit_cons]
        show (runRateLimit window maxRequests key
            (rateLimitCheck window maxRequests m key t).2 ts2).2 key = _
        rw [hkey]
        show (runRateLimit window maxRequests key m ts2).2 key = _
        rw [ihmap]
        have he : min (c + ts2.length) maxRequests = min (c + (t :: ts2).length) maxRequests := by
          rw [List.length_cons]
          omega
        rw [he]

/-- C3: for every client key, window `W` and per-window maximum `M ≥ 1`,
starting from an empty map: the first `M` calls within the window are allowed
with remaining `M-1, M-2, ..., 0`, call `M+1` within the window is rejected
with remaining 0, and a further call strictly after the stored reset time is
allowed again with remaining `M-1` and a fresh window ending at that call's
time plus `W`.  `checkAnalysisRateLimit` and the news route's `checkRateLimit`
are instances of the checked algorithm at their respective constants and
keys. -/
theorem rateLimiter_fixed_window_spec (window : Int) (maxRequests : Nat) (key : String)
    (t0 : Int) (ts : List Int) (tlast : Int)
    (hM : 1 ≤ maxRequests) (hlen : ts.length = maxRequests)
    (hts : ∀ t ∈ ts, t ≤ t0 + window) (hlast : t0 + window < tlast) :
    (runRateLimit window maxRequests key (fun _ => none) (t0 :: ts ++ [tlast])).1.length =
      maxRequests + 2
  ∧ (∀ k, k < maxRequests →
      (runRateLimit window maxRequests key (fun _ => none) (t0 :: ts ++ [tlast])).1.get? k =
        some ⟨true, (maxRequests : Int) - 1 - k, t0 + window⟩)
  ∧ (runRateLimit window maxRequests key (fun _ => none) (t0 :: ts ++ [tlast])).1.get?
      maxRequests = some ⟨false, 0, t0 + window⟩
  ∧ (runRateLimit window maxRequests key (fun _ => none) (t0 :: ts ++ [tlast])).1.get?
      (maxRequests + 1) = some ⟨true, (maxRequests : Int) - 1, tlast + window⟩
  ∧ (∀ (m : RateMap) (ip : String) (now : Int),
      checkAnalysisRateLimit m ip now =
        rateLimitCheck analysisRateLimitWindow analysisRateLimitMaxRequests m
          ("analysis_" ++ ip) now)
  ∧ (∀ (m : RateMap) (ip : String) (now : Int),
      checkRateLimit m ip now =
        rateLimitCheck newsRateLimitWindow newsRateLimitMaxRequests m ip now) := by
  have hfirst : rateLimitCheck window maxRequests (fun _ => none) key t0 =
      (⟨true, (maxRequests : Int) - 1, t0 + window⟩,
        updateRateMap (fun _ => none) key ⟨1, t0 + window⟩) := by
    simp [rateLimitCheck]
  have hm1key : (updateRateMap (fun _ => none) key ⟨1, t0 + window⟩) key =
      some ⟨1, t0 + window⟩ := by
    simp [updateRateMap]
  obtain ⟨hres1, hmap1⟩ := runRateLimit_within window maxRequests key (t0 + window) ts 1
    (updateRateMap (fun _ => none) key ⟨1, t0 + window⟩) le_rfl hM hts hm1key
  have hmid : (runRateLimit window maxRequests key
      (updateRateMap (fun _ => none) key ⟨1, t0 + window⟩) ts).2 key =
      some ⟨maxRequests, t0 + window⟩ := by
    rw [hmap1, hlen]
    have : min (1 + maxRequests) maxRequests = maxRequests := by omega
    rw [this]
  have hlastcheck : rateLimitCheck window maxRequests
      ((runRateLimit window maxRequests key
        (updateRateMap (fun _ => none) key ⟨1, t0 + window⟩) ts).2) key tlast =
      (⟨true, (maxRequests : Int) - 1, tlast + window⟩,
        updateRateMap ((runRateLimit window maxRequests key
          (updateRateMap (fun _ => none) key ⟨1, t0 + window⟩) ts).2) key
          ⟨1, tlast + window⟩) := by
    simp only [rateLimitCheck, hmid]
    rw [if_pos (by omega : tlast > t0 + window)]
  have happ := runRateLimit_append window maxRequests key ts [tlast]
    (updateRateMap (fun _ => none) key ⟨1, t0 + window⟩)
  have hfull : (runRateLimit window maxRequests key (fun _ => none) (t0 :: ts ++ [tlast])).1 =
      RateLimitResult.mk true ((maxRequests : Int) - 1) (t0 + window) ::
        ((runRateLimit window maxRequests key
            (updateRateMap (fun _ => none) key ⟨1, t0 + window⟩) ts).1 ++
          [⟨true, (maxRequests : Int) - 1, tlast + window⟩]) := by
    rw [List.cons_append, runRateLimit_cons, hfirst]
    show _ :: (runRateLimit window maxRequests key
        (updateRateMap (fun _ => none) key ⟨1, t0 + window⟩) (ts ++ [tlast])).1 = _
    rw [happ.1, runRateLimit_cons, hlastcheck]
    rfl
  have hmidlen : (runRateLimit window maxRequests key
      (updateRateMap (fun _ => none) key ⟨1, t0 + window⟩) ts).1.length = maxRequests := by
    rw [runRateLimit_length, hlen]
  refine ⟨?_, ?_, ?_, ?_, fun m ip now => rfl, fun m ip now => rfl⟩
  · rw [hfull, List.length_cons, List.length_append, hmidlen]
    rfl
  · intro k hk
    rw [hfull]
    cases k with
    | zero =>
      rw [List.get?_cons_zero]
      simp only [Option.some.injEq, RateLimitResult.mk.injEq, true_and, and_true]
      push_cast
      ring
    | succ k2 =>
      rw [List.get?_cons_succ, List.get?_append (by omega : k2 < (runRateLimit window maxRequests
        key (updateRateMap (fun _ => none) key ⟨1, t0 + window⟩) ts).1.length),
        hres1 k2 (by omega : k2 < ts.length),
        if_pos (by omega : 1 + k2 < maxRequests)]
      simp only [Option.some.injEq, RateLimitResult.mk.injEq, true_and, and_true]
      push_cast
      ring
  · obtain ⟨m2, hM2⟩ : ∃ m2, maxRequests = m2 + 1 := ⟨maxRequests - 1, by omega⟩
    subst hM2
    rw [hfull, List.get?_cons_succ,
      List.get?_append (by omega : m2 < (runRateLimit window (m2 + 1) key
        (updateRateMap (fun _ => none) key ⟨1, t0 + window⟩) ts).1.length),
      hres1 m2 (by omega : m2 < ts.length),
      if_neg (by omega : ¬1 + m2 < m2 + 1)]
  · rw [hfull, List.get?_cons_succ,
      List.get?_append_right (by omega : (runRateLimit window maxRequests key
        (updateRateMap (fun _ => none) key ⟨1, t0 + window⟩) ts).1.length ≤ maxRequests)]
    rw [hmidlen, Nat.sub_self, List.get?_cons_zero]

/-- Witness for C3 at the spec's instance `max = 3`: remaining 2, 1, 0, then a
rejection, then 2 again in a fresh window. -/
theorem rateLimiter_fixed_window_spec_witness :
    (runRateLimit 300000 3 ("analysis_ip") (fun _ => none) [0, 1, 2, 3, 300001]).1.length = 3 + 2
  ∧ (runRateLimit 300000 3 ("analysis_ip") (fun _ => none) [0, 1, 2, 3, 300001]).1.get? 0 =
      some ⟨true, 2, 300000⟩
  ∧ (runRateLimit 300000 3 ("analysis_ip") (fun _ => none) [0, 1, 2, 3, 300001]).1.get? 1 =
      some ⟨true, 1, 300000⟩
  ∧ (runRateLimit 300000 3 ("analysis_ip") (fun _ => none) [0, 1, 2, 3, 300001]).1.get? 2 =
      some ⟨true, 0, 300000⟩
  ∧ (runRateLimit 300000 3 ("analysis_ip") (fun _ => none) [0, 1, 2, 3, 300001]).1.get? 3 =
      some ⟨false, 0, 300000⟩
  ∧ (runRateLimit 300000 3 ("analysis_ip") (fun _ => none) [0, 1, 2, 3, 300001]).1.get? 4 =
      some ⟨true, 2, 600001⟩ := by
  have h := rateLimiter_fixed_window_spec 300000 3 ("analysis_ip") 0 [1, 2, 3] 300001
    (by decide) rfl (by decide) (by decide)
  refine ⟨h.1, ?_, ?_, ?_, ?_, ?_⟩
  · exact h.2.1 0 (by decide)
  · exact h.2.1 1 (by decide)
  · exact h.2.1 2 (by decide)
  · exact h.2.2.1
  · exact h.2.2.2.1

/-! ## Claim C10: the step-7 fallback branch is unreachable -/

/-- C10: the cache check always collects exactly one uncached article per
miss, so whenever there is at least one miss the uncached list is non-empty
and the `Unexpected state` fallback branch of `analyzeBulkSentiment` is never
taken, on any input. -/
theorem analyzeBulkSentiment_fallback_unreachable (st : BulkState) (now : Int)
    (modelPresent disabled : Bool) (response : ModelResponse) (articles : List Article) :
    (analyzeBulkSentiment st now modelPresent disabled response articles).usedFallback = false
  ∧ (getCachedArticleSentiments st.individualArticleCache now articles).uncachedArticles.length =
      (getCachedArticleSentiments st.individualArticleCache now articles).misses := by
  have hlen : (getCachedArticleSentiments st.individualArticleCache now articles).uncachedArticles.length =
      (getCachedArticleSentiments st.individualArticleCache now articles).misses :=
    cacheCheckAux_uncached_length st.individualArticleCache now articles 0
  constructor
  · by_cases hm : (getCachedArticleSentiments st.individualArticleCache now articles).misses = 0
    · simp [analyzeBulkSentiment, hm]
    · by_cases hb : (!modelPresent || disabled) = true
      · simp [analyzeBulkSentiment, hm, hb]
      · have h3 : 0 <
            (getCachedArticleSentiments st.individualArticleCache now articles).uncachedArticles.length := by
          rw [hlen]
          omega
        simp [analyzeBulkSentiment, hm, hb, h3]
  · exact hlen

end MarketBrief
